import Mathlib

/-!
Verification development for the movimientosTA repository.

Part A models the incremental change-feed / checkpoint-sync core
(change log store, checkpoint tracker, change feed reader, ack/purge
handler, dual-view batch projector).  The backend implementing this core
is not shipped in this repository (only its README contract and its
JavaScript callers are), so the definitions in Part A are modelled from
the specification text, faithfully following its wording; each such
definition says so in its doc comment.

Part B embeds JavaScript functions that are shipped in the repository:
`calculateInkwellTotals` (inkwell details page) and the transaction-list
pagination controller (`loadMore` / `reloadTransactions`).  JavaScript
numbers are modelled as rationals; the coercion `Number(value ?? 0)`
guarded by `Number.isFinite` is modelled by the `JsNum` type whose
non-finite and missing cases collapse to `0`, exactly as the source's
`toNumber` helper does.
-/

namespace ChangeFeed

/-- Modelled from the spec: `event_kind`: one of `created | updated | deleted`. -/
inductive EventKind where
  | created
  | updated
  | deleted
deriving DecidableEq, Repr

/-- Modelled from the spec: the `payload` carried by a change event, shaped by
the event kind (§4.3): `created` carries entity id and description; `updated`
additionally carries `previous_description`; `deleted` carries the last-known
description and an explicit deletion flag.  The payload is inert for every
claim below. -/
inductive Payload where
  | createdP (entityId : Nat) (description : String)
  | updatedP (entityId : Nat) (description : String) (previousDescription : String)
  | deletedP (entityId : Nat) (description : String)
deriving DecidableEq, Repr

/-- Modelled from the spec: **ChangeEvent** — `id` (monotonically increasing
integer, the ordering key and checkpoint unit), `entity_id`, `event_kind`,
`occurred_at`, `payload`. -/
structure ChangeEvent where
  id : Nat
  entity_id : Nat
  event_kind : EventKind
  occurred_at : Nat
  payload : Payload
deriving DecidableEq, Repr

/-- Modelled from the spec: the **Change Log Store**, an append-only ledger of
mutation events kept in increasing `id` order.  `events` is the retained log;
`nextId` is the id-assigning sequence (ids are "strictly increasing and never
reused, even after purge", so the sequence is not derived from the retained
events — it models the backing store's autoincrement counter). -/
structure ChangeLogStore where
  events : List ChangeEvent
  nextId : Nat
deriving DecidableEq, Repr

namespace ChangeLogStore

/-- Modelled from the spec: `maxId()` returns the highest stored `id`, or 0 if
empty. -/
def maxId (s : ChangeLogStore) : Nat :=
  s.events.foldl (fun acc e => Nat.max acc e.id) 0

/-- Modelled from the spec: `append(entity_id, kind, payload)` assigns the next
`id` (strictly increasing), stores `occurred_at` = current time, returns the
stored event. -/
def append (s : ChangeLogStore) (now entityId : Nat) (kind : EventKind)
    (payload : Payload) : ChangeLogStore × ChangeEvent :=
  let e : ChangeEvent :=
    { id := s.nextId, entity_id := entityId, event_kind := kind
      occurred_at := now, payload := payload }
  ({ events := s.events ++ [e], nextId := s.nextId + 1 }, e)

/-- Modelled from the spec: `deleteUpTo(id)` removes all events with
`id ≤ given id`; idempotent. -/
def deleteUpTo (s : ChangeLogStore) (n : Nat) : ChangeLogStore :=
  { events := s.events.filter (fun e => n < e.id), nextId := s.nextId }

end ChangeLogStore

/-- Modelled from the spec: **Checkpoint** — `last_confirmed_id` (highest `id`
ever acknowledged, starts at 0) and `updated_at` (timestamp of last ack). -/
structure CheckpointTracker where
  lastConfirmedId : Nat
  updatedAt : Nat
deriving DecidableEq, Repr

/-- The whole synchronised state for one entity class: its change log store
plus its checkpoint tracker. -/
structure SysState where
  store : ChangeLogStore
  tracker : CheckpointTracker
deriving DecidableEq, Repr

/-- The initial state: empty log, checkpoint 0.  Ids start at 1 so that an
assigned id is never 0 (`maxId` of the empty store). -/
def initState : SysState :=
  { store := { events := [], nextId := 1 }
    tracker := { lastConfirmedId := 0, updatedAt := 0 } }

/-- Well-formedness of a store: the retained events are strictly ascending in
`id` and every retained id is below the id-assigning sequence. -/
def WfStore (s : ChangeLogStore) : Prop :=
  s.events.Pairwise (fun a b => a.id < b.id) ∧ ∀ e ∈ s.events, e.id < s.nextId

/-- Well-formedness of a full state. -/
def WfSys (st : SysState) : Prop := WfStore st.store

instance (s : ChangeLogStore) : Decidable (WfStore s) := by
  unfold WfStore; infer_instance

instance (st : SysState) : Decidable (WfSys st) := by
  unfold WfSys; infer_instance

/-- Modelled from the spec: the page returned by `listChanges` —
`last_confirmed_id` (current tracker value, informational), `checkpoint_id`
(id of the last event included, or the effective `since` when the page is
empty), `has_more`, and the ordered list of events. -/
structure ChangesPage where
  last_confirmed_id : Nat
  checkpoint_id : Nat
  has_more : Bool
  changes : List ChangeEvent
deriving DecidableEq, Repr

/-- Modelled from the spec: `listChanges(since?, limit)` — `since` defaults to
the tracker's `last_confirmed_id` when omitted; the service queries `limit + 1`
rows with `id > since` ordered ascending by `id`, truncates to `limit`, and
sets `has_more` exactly when the over-fetch returned more than `limit` rows. -/
def listChanges (st : SysState) (since : Option Nat) (limit : Nat) : ChangesPage :=
  let s := since.getD st.tracker.lastConfirmedId
  let fetched := (st.store.events.filter (fun e => s < e.id)).take (limit + 1)
  let page := fetched.take limit
  { last_confirmed_id := st.tracker.lastConfirmedId
    checkpoint_id := ((page.getLast?).map ChangeEvent.id).getD s
    has_more := decide (limit < fetched.length)
    changes := page }

/-- Modelled from the spec: the two `InvalidCheckpoint` reasons of §4.4 —
"below last confirmed" and "does not exist". -/
inductive AckError where
  | belowLastConfirmed
  | doesNotExist
deriving DecidableEq, Repr

/-- Modelled from the spec: `ack(checkpointId)` (§4.4), with the validation
checks applied in the order the contract lists them: fail "below last
confirmed" if `checkpointId < tracker.get()`; fail "does not exist" if
`checkpointId > store.maxId()`; no mutation if `checkpointId == tracker.get()`;
otherwise, in one atomic unit of work, advance the tracker to `checkpointId`
and delete all stored events with `id ≤ checkpointId`.  The returned pair is
(state after the call, result); on success the result carries the new
`last_confirmed_id` and `updated_at`. -/
def ack (now : Nat) (st : SysState) (checkpointId : Nat) :
    SysState × Except AckError (Nat × Nat) :=
  if checkpointId < st.tracker.lastConfirmedId then
    (st, .error .belowLastConfirmed)
  else if st.store.maxId < checkpointId then
    (st, .error .doesNotExist)
  else if checkpointId = st.tracker.lastConfirmedId then
    (st, .ok (st.tracker.lastConfirmedId, st.tracker.updatedAt))
  else
    ({ store := st.store.deleteUpTo checkpointId
       tracker := { lastConfirmedId := checkpointId, updatedAt := now } },
     .ok (checkpointId, now))

/-- Modelled from the spec: the mutating operations a run of the system
interleaves — appends (a side effect of an entity mutation), acks (which purge
on success), and direct `deleteUpTo` purges. -/
inductive LogOp where
  | appendOp (now entityId : Nat) (kind : EventKind) (payload : Payload)
  | ackOp (now checkpointId : Nat)
  | purgeOp (n : Nat)
deriving DecidableEq, Repr

/-- One step of the system: apply a single operation.  A failed ack leaves the
state exactly as it was (the `ack` model already returns the unchanged
state). -/
def applyOp (st : SysState) : LogOp → SysState
  | .appendOp now entityId kind payload =>
      { st with store := (st.store.append now entityId kind payload).1 }
  | .ackOp now checkpointId => (ack now st checkpointId).1
  | .purgeOp n => { st with store := st.store.deleteUpTo n }

/-- Run a sequence of operations. -/
def runOps (st : SysState) : List LogOp → SysState
  | [] => st
  | op :: ops => runOps (applyOp st op) ops

/-- The ids assigned to appended events along a run, in order of
assignment. -/
def assignedIds (st : SysState) : List LogOp → List Nat
  | [] => []
  | op :: ops =>
      (match op with
        | .appendOp _ _ _ _ => [st.store.nextId]
        | _ => []) ++ assignedIds (applyOp st op) ops

/-- The ids currently retained in the store. -/
def storedIds (st : SysState) : List Nat := st.store.events.map ChangeEvent.id

end ChangeFeed

namespace BillingBatch

/-- Modelled from the spec: the billing-account transaction payload carried by
a batch event (shape is inert for the claims; id plus a descriptive field). -/
structure Tx where
  id : Nat
  description : String
deriving DecidableEq, Repr

/-- Modelled from the spec: **TransactionBatchEvent** — carries
`event ∈ {created, updated, deleted}`, a nullable `transaction` payload (null
when `deleted`), and `transaction_id` for deletions. -/
structure TxEvent where
  event : ChangeFeed.EventKind
  transaction : Option Tx
  transaction_id : Option Nat
deriving DecidableEq, Repr

/-- A mutation of a billing transaction, the source of one batch event. -/
inductive TxMutation where
  | created (t : Tx)
  | updated (t : Tx)
  | deleted (txId : Nat)
deriving DecidableEq, Repr

/-- Modelled from the spec: how one mutation is recorded in the batch — a
deletion carries `transaction = null` and a set `transaction_id`; creations and
updates carry the transaction payload. -/
def txEventOfMutation : TxMutation → TxEvent
  | .created t => { event := .created, transaction := some t, transaction_id := none }
  | .updated t => { event := .updated, transaction := some t, transaction_id := none }
  | .deleted i => { event := .deleted, transaction := none, transaction_id := some i }

/-- Modelled from the spec: the three views returned by the billing-account
batch feed. -/
structure TxBatchView where
  transaction_events : List TxEvent
  transactions : List Tx
  active_transactions_in_batch : List Tx
deriving DecidableEq, Repr

/-- Modelled from the spec: the **Dual-View Batch Projector** —
`transaction_events` is the full batch; `transactions` and
`active_transactions_in_batch` are derived by filtering it to
`created`/`updated` only and projecting the `transaction` payload, both
computed from the one batch argument in the same call. -/
def projectBatch (batch : List TxEvent) : TxBatchView :=
  let actives :=
    (batch.filter (fun e =>
      decide (e.event = .created) || decide (e.event = .updated))).filterMap
      TxEvent.transaction
  { transaction_events := batch
    transactions := actives
    active_transactions_in_batch := actives }

end BillingBatch

namespace Inkwell

/-- A JavaScript value in a numeric position, as `toNumber` sees it: either a
finite number (modelled as a rational), a non-finite / non-numeric value
(`NaN`, `Infinity`, a non-numeric string, ...), or missing (`null` /
`undefined`, including an absent field reached through optional chaining). -/
inductive JsNum where
  | val (q : ℚ)
  | nonnum
  | missing
deriving DecidableEq, Repr

/-- Embeds `toNumber` from `inkwell_details`-related source: `Number(value ?? 0)`
returned when finite, else `0`.  A missing value becomes `Number(0) = 0`; a
non-finite coercion result is replaced by `0`; a finite number is returned
unchanged. -/
def toNumber : JsNum → ℚ
  | .val q => q
  | .nonnum => 0
  | .missing => 0

/-- An invoice as `calculateInkwellTotals` reads it: its `type` string (absent
modelled as `none`) and the three numeric fields the function touches. -/
structure Invoice where
  type : Option String
  iva_amount : JsNum
  iibb_amount : JsNum
  percepciones : JsNum
deriving DecidableEq, Repr

/-- A retention certificate as `classifyRetention` and the totals loop read it:
the `certificate?.retained_tax_type?.name` chain (collapsed to `none` when any
link is missing) and the `amount` field. -/
structure RetCert where
  taxTypeName : Option String
  amount : JsNum
deriving DecidableEq, Repr

/-- The `billingData` argument: `invoices` and `retention_certificates`, each
`none` when absent or not an array (the source replaces those with `[]`). -/
structure BillingData where
  invoices : Option (List Invoice)
  retention_certificates : Option (List RetCert)
deriving DecidableEq, Repr

/-- The `summary` argument: the two fields the function reads through optional
chaining. -/
structure InkwellSummary where
  inkwell_income : JsNum
  inkwell_expense : JsNum
deriving DecidableEq, Repr

/-- JavaScript `String.prototype.toLowerCase`, restricted to the alphabet the
source compares against (ASCII). -/
def jsToLower (s : String) : String := String.mk (s.data.map Char.toLower)

/-- JavaScript `String.prototype.includes`: substring containment. -/
def jsIncludes (s sub : String) : Bool := decide (List.IsInfix sub.toList s.toList)

/-- The three categories `classifyRetention` returns. -/
inductive RetCategory where
  | iva
  | iibb
  | other
deriving DecidableEq, Repr

/-- Embeds `classifyRetention`: lower-case the (defaulted) tax-type name; empty
name is `other`; a name containing `"iva"` is `iva`; else a name containing
`"iibb"` or `"ingresos brutos"` is `iibb`; else `other`. -/
def classifyRetention (c : RetCert) : RetCategory :=
  let name := jsToLower (c.taxTypeName.getD "")
  if name = "" then .other
  else if jsIncludes name "iva" then .iva
  else if jsIncludes name "iibb" || jsIncludes name "ingresos brutos" then .iibb
  else .other

/-- The accumulator of the `invoices.forEach` loop. -/
structure InvAcc where
  purchaseIva : ℚ
  salesIva : ℚ
  sircreb : ℚ
  perceptions : ℚ
deriving DecidableEq, Repr

/-- One iteration of the `invoices.forEach` loop of `calculateInkwellTotals`. -/
def stepInvoice (acc : InvAcc) (invoice : Invoice) : InvAcc :=
  let ivaAmount := toNumber invoice.iva_amount
  let iibbAmount := toNumber invoice.iibb_amount
  let percepcionesAmount := toNumber invoice.percepciones
  let acc :=
    if invoice.type = some "purchase" then
      { acc with purchaseIva := acc.purchaseIva + ivaAmount }
    else if invoice.type = some "sale" then
      { acc with salesIva := acc.salesIva + ivaAmount
                 sircreb := acc.sircreb + iibbAmount }
    else acc
  { acc with perceptions := acc.perceptions + percepcionesAmount }

/-- The accumulator of the `retentions.forEach` loop. -/
structure RetAcc where
  ivaRetentions : ℚ
  iibbRetentions : ℚ
  otherAdditions : ℚ
deriving DecidableEq, Repr

/-- One iteration of the `retentions.forEach` loop of
`calculateInkwellTotals`. -/
def stepRetention (acc : RetAcc) (certificate : RetCert) : RetAcc :=
  let amount := toNumber certificate.amount
  match classifyRetention certificate with
  | .iva => { acc with ivaRetentions := acc.ivaRetentions + amount }
  | .iibb => { acc with iibbRetentions := acc.iibbRetentions + amount }
  | .other => { acc with otherAdditions := acc.otherAdditions + amount }

/-- The object `calculateInkwellTotals` returns. -/
structure InkwellTotals where
  income : ℚ
  expense : ℚ
  purchaseIva : ℚ
  ivaRetentions : ℚ
  iibbRetentions : ℚ
  perceptions : ℚ
  salesIva : ℚ
  sircreb : ℚ
  baseAvailable : ℚ
  available : ℚ
deriving DecidableEq, Repr

/-- Embeds `calculateInkwellTotals` from the inkwell-details source. -/
def calculateInkwellTotals (billingData : BillingData) (summary : InkwellSummary) :
    InkwellTotals :=
  let invoices := billingData.invoices.getD []
  let retentions := billingData.retention_certificates.getD []
  let income := toNumber summary.inkwell_income
  let expense := toNumber summary.inkwell_expense
  let invAcc := invoices.foldl stepInvoice ⟨0, 0, 0, 0⟩
  let retAcc := retentions.foldl stepRetention ⟨0, 0, 0⟩
  let additions := invAcc.purchaseIva + retAcc.ivaRetentions +
    retAcc.iibbRetentions + invAcc.perceptions + retAcc.otherAdditions
  let deductions := invAcc.salesIva + invAcc.sircreb
  let baseAvailable := income - expense
  let available := baseAvailable + additions - deductions
  { income := income
    expense := expense
    purchaseIva := invAcc.purchaseIva
    ivaRetentions := retAcc.ivaRetentions
    iibbRetentions := retAcc.iibbRetentions
    perceptions := invAcc.perceptions + retAcc.otherAdditions
    salesIva := invAcc.salesIva
    sircreb := invAcc.sircreb
    baseAvailable := baseAvailable
    available := available }

/-- Sum of a rational-valued projection over a list (the specification-side
reading "sums ... over invoices of type ...", compared against the loop). -/
def sumBy {α : Type} (l : List α) (f : α → ℚ) : ℚ := (l.map f).sum

/-- The effective (lower-cased, defaulted) tax-type name `classifyRetention`
inspects. -/
def effName (c : RetCert) : String := jsToLower (c.taxTypeName.getD "")

/-- Specification-side reading of the `iva` retention category: the name
contains `"iva"` — regardless of whether it also contains `"iibb"`, since the
`"iva"` test is applied first. -/
def ivaNamed (c : RetCert) : Bool := jsIncludes (effName c) "iva"

/-- Specification-side reading of the `iibb` retention category: the name does
not contain `"iva"` but contains `"iibb"` or `"ingresos brutos"`. -/
def iibbNamed (c : RetCert) : Bool :=
  !ivaNamed c &&
    (jsIncludes (effName c) "iibb" || jsIncludes (effName c) "ingresos brutos")

/-- Specification-side reading of the `other` retention category: neither of
the above (an empty or missing name lands here). -/
def otherNamed (c : RetCert) : Bool :=
  !ivaNamed c &&
    !(jsIncludes (effName c) "iibb" || jsIncludes (effName c) "ingresos brutos")

end Inkwell

namespace TxList

/-- The page size of the transaction-list controller (`const limit = 50`). -/
def txLimit : Nat := 50

/-- The mutable state of the transaction-list controller that `loadMore` and
`reloadTransactions` touch: the accumulated rows, the fetch offset, the
`hasMore` flag and the `loading` re-entrancy guard.  Rows are opaque (`α`). -/
structure TxListState (α : Type) where
  transactions : List α
  offset : Nat
  hasMore : Bool
  loading : Bool
deriving DecidableEq, Repr

/-- The controller state on page load. -/
def initTxList {α : Type} : TxListState α :=
  { transactions := [], offset := 0, hasMore := true, loading := false }

/-- Embeds `loadMore`: return immediately when `loading || !hasMore`;
otherwise append the fetched rows, advance `offset` by their count, and clear
`hasMore` when fewer than `limit` rows came back.  `data` is what
`fetchTransactions(limit, offset, filters)` resolved to for this call; the
returned `Bool` records whether the fetch was performed. -/
def loadMore {α : Type} (st : TxListState α) (data : List α) :
    TxListState α × Bool :=
  if st.loading || !st.hasMore then (st, false)
  else
    ({ transactions := st.transactions ++ data
       offset := st.offset + data.length
       hasMore := if data.length < txLimit then false else st.hasMore
       loading := false }, true)

/-- Embeds `reloadTransactions`: clear the list, reset `offset` to 0 and
`hasMore` to `true`, then run one `loadMore`. -/
def reloadTransactions {α : Type} (st : TxListState α) (data : List α) :
    TxListState α × Bool :=
  loadMore { st with transactions := [], offset := 0, hasMore := true } data

/-- A call into the controller together with the rows its fetch (if any)
resolves to. -/
inductive TxOp (α : Type) where
  | more (data : List α)
  | reload (data : List α)
deriving DecidableEq, Repr

/-- Run a sequence of controller calls, tallying alongside the state the
number of rows fetched since the last reset (a reload zeroes the tally before
its own fetch). -/
def runTx {α : Type} (st : TxListState α) (tally : Nat) :
    List (TxOp α) → TxListState α × Nat
  | [] => (st, tally)
  | .more data :: ops =>
      let r := loadMore st data
      runTx r.1 (tally + (if r.2 then data.length else 0)) ops
  | .reload data :: ops =>
      let st0 : TxListState α := { st with transactions := [], offset := 0, hasMore := true }
      let r := loadMore st0 data
      runTx r.1 (if r.2 then data.length else 0) ops

end TxList

namespace ChangeFeed

/-- A concrete well-formed state used by witnesses: the spec's worked scenario,
a store holding events with ids 10..14 and the tracker at 10. -/
def scenarioState : SysState :=
  { store :=
      { events :=
          [ { id := 10, entity_id := 1, event_kind := .created, occurred_at := 1
              payload := .createdP 1 "a" }
          , { id := 11, entity_id := 2, event_kind := .created, occurred_at := 2
              payload := .createdP 2 "b" }
          , { id := 12, entity_id := 1, event_kind := .updated, occurred_at := 3
              payload := .updatedP 1 "c" "a" }
          , { id := 13, entity_id := 3, event_kind := .created, occurred_at := 4
              payload := .createdP 3 "d" }
          , { id := 14, entity_id := 2, event_kind := .deleted, occurred_at := 5
              payload := .deletedP 2 "b" } ]
        nextId := 15 }
    tracker := { lastConfirmedId := 10, updatedAt := 0 } }

/-- Modelled from the spec: a read of the change feed as the endpoint would
run it — it returns the page and the state it leaves behind, which is the
input state unchanged ("it is a pure read", lock-free, no side effects). -/
def listChangesCall (st : SysState) (since : Option Nat) (limit : Nat) :
    ChangesPage × SysState :=
  (listChanges st since limit, st)

/-- C1: for `tracker.get() < checkpointId ≤ store.maxId()`, `ack` succeeds and,
in the one atomic step the model takes, the tracker becomes `checkpointId`, the
store retains exactly the events with `id > checkpointId` (unchanged and in
order), and no event with `id ≤ checkpointId` survives. -/
theorem ack_success_atomic_purge (now : Nat) (st : SysState) (checkpointId : Nat)
    (h1 : st.tracker.lastConfirmedId < checkpointId)
    (h2 : checkpointId ≤ st.store.maxId) :
    (ack now st checkpointId).2 = .ok (checkpointId, now) ∧
    (ack now st checkpointId).1.tracker.lastConfirmedId = checkpointId ∧
    (ack now st checkpointId).1.store.events =
      st.store.events.filter (fun e => checkpointId < e.id) ∧
    (∀ e ∈ (ack now st checkpointId).1.store.events, checkpointId < e.id) ∧
    (∀ e ∈ st.store.events, checkpointId < e.id →
      e ∈ (ack now st checkpointId).1.store.events) := by
  have hlt : ¬ checkpointId < st.tracker.lastConfirmedId := by omega
  have hmax : ¬ st.store.maxId < checkpointId := by omega
  have hne : ¬ checkpointId = st.tracker.lastConfirmedId := by omega
  simp only [ack, if_neg hlt, if_neg hmax, if_neg hne, ChangeLogStore.deleteUpTo]
  refine ⟨by trivial, by trivial, by trivial, ?_, ?_⟩
  · intro e he
    simpa using (List.mem_filter.mp he).2
  · intro e he hgt
    exact List.mem_filter.mpr ⟨he, by simpa using hgt⟩

/-- Witness for C1: the spec scenario, acked at 12. -/
theorem ack_success_atomic_purge_witness :
    (ack 99 scenarioState 12).2 = .ok (12, 99) ∧
    (ack 99 scenarioState 12).1.tracker.lastConfirmedId = 12 ∧
    (ack 99 scenarioState 12).1.store.events =
      scenarioState.store.events.filter (fun e => 12 < e.id) := by
  have h := ack_success_atomic_purge 99 scenarioState 12 (by decide) (by decide)
  exact ⟨h.1, h.2.1, h.2.2.1⟩

/-- C2: `listChanges` returns the events with `id > since` in ascending order
truncated to the first `limit` of them; `has_more` holds exactly when more than
`limit` such events exist; `checkpoint_id` is the id of the last included
event, or the effective `since` when the page is empty; `last_confirmed_id` is
the tracker value, which is also the default when `since` is omitted. -/
theorem listChanges_page_spec (st : SysState) (since : Option Nat) (limit : Nat)
    (hwf : WfSys st) (_hlo : 1 ≤ limit) (_hhi : limit ≤ 500) :
    (listChanges st since limit).changes =
      (st.store.events.filter
        (fun e => since.getD st.tracker.lastConfirmedId < e.id)).take limit ∧
    ((listChanges st since limit).has_more = true ↔
      limit < (st.store.events.filter
        (fun e => since.getD st.tracker.lastConfirmedId < e.id)).length) ∧
    (listChanges st since limit).checkpoint_id =
      (((((st.store.events.filter
            (fun e => since.getD st.tracker.lastConfirmedId < e.id)).take
              limit).getLast?).map ChangeEvent.id).getD
        (since.getD st.tracker.lastConfirmedId)) ∧
    (listChanges st since limit).last_confirmed_id =
      st.tracker.lastConfirmedId ∧
    (listChanges st since limit).changes.Pairwise (fun a b => a.id < b.id) ∧
    (∀ e ∈ (listChanges st since limit).changes,
      since.getD st.tracker.lastConfirmedId < e.id) ∧
    listChanges st none limit =
      listChanges st (some st.tracker.lastConfirmedId) limit := by
  have htake :
      ((st.store.events.filter
        (fun e => since.getD st.tracker.lastConfirmedId < e.id)).take
          (limit + 1)).take limit =
      (st.store.events.filter
        (fun e => since.getD st.tracker.lastConfirmedId < e.id)).take limit := by
    rw [List.take_take, Nat.min_eq_left (by omega)]
  have hchanges :
      (listChanges st since limit).changes =
      (st.store.events.filter
        (fun e => since.getD st.tracker.lastConfirmedId < e.id)).take limit := by
    simp only [listChanges]
    exact htake
  refine ⟨hchanges, ?_, ?_, rfl, ?_, ?_, rfl⟩
  · simp only [listChanges, decide_eq_true_eq, List.length_take]
    omega
  · simp only [listChanges]
    rw [htake]
  · rw [hchanges]
    exact List.Pairwise.sublist
      ((List.take_sublist _ _).trans (List.filter_sublist _)) hwf.1
  · intro e he
    rw [hchanges] at he
    have := List.of_mem_filter (List.take_subset _ _ he)
    simpa using this

/-- Witness for C2: the spec scenario `listChanges(since=None, limit=2)` on the
store with ids 10..14 and the tracker at 10. -/
theorem listChanges_page_spec_witness :
    (listChanges scenarioState none 2).changes =
      (scenarioState.store.events.filter
        (fun e => (none : Option Nat).getD
          scenarioState.tracker.lastConfirmedId < e.id)).take 2 ∧
    ((listChanges scenarioState none 2).has_more = true ↔
      2 < (scenarioState.store.events.filter
        (fun e => (none : Option Nat).getD
          scenarioState.tracker.lastConfirmedId < e.id)).length) ∧
    (listChanges scenarioState none 2).checkpoint_id =
      (((((scenarioState.store.events.filter
            (fun e => (none : Option Nat).getD
              scenarioState.tracker.lastConfirmedId < e.id)).take
              2).getLast?).map ChangeEvent.id).getD
        ((none : Option Nat).getD scenarioState.tracker.lastConfirmedId)) ∧
    (listChanges scenarioState none 2).last_confirmed_id =
      scenarioState.tracker.lastConfirmedId ∧
    (listChanges scenarioState none 2).changes.Pairwise
      (fun a b => a.id < b.id) ∧
    listChanges scenarioState none 2 =
      listChanges scenarioState
        (some scenarioState.tracker.lastConfirmedId) 2 := by
  have h :=
    listChanges_page_spec scenarioState none 2 (by decide) (by decide)
      (by decide)
  exact ⟨h.1, h.2.1, h.2.2.1, h.2.2.2.1, h.2.2.2.2.1, h.2.2.2.2.2.2⟩

/-- C4: an ack strictly below the last confirmed checkpoint fails with the
"below last confirmed" reason and leaves the state exactly as it was. -/
theorem ack_below_last_confirmed_rejected (now : Nat) (st : SysState)
    (checkpointId : Nat) (h : checkpointId < st.tracker.lastConfirmedId) :
    ack now st checkpointId = (st, .error .belowLastConfirmed) := by
  simp only [ack, if_pos h]

/-- Witness for C4: ack 3 when the tracker is at 10. -/
theorem ack_below_last_confirmed_rejected_witness :
    ack 7 scenarioState 3 = (scenarioState, .error .belowLastConfirmed) :=
  ack_below_last_confirmed_rejected 7 scenarioState 3 (by decide)

/-- C5 counterexample: in the state left behind by a fully-purging ack
(tracker at 5, empty store), `ack(4)` has `checkpointId > store.maxId()` yet
fails with reason "below last confirmed", not "does not exist" — the
below-last-confirmed check of §4.4 is applied first. -/
theorem ack_above_maxId_reason_counterexample :
    (ChangeLogStore.maxId { events := [], nextId := 6 } < 4) ∧
    ack 7 { store := { events := [], nextId := 6 }
            tracker := { lastConfirmedId := 5, updatedAt := 0 } } 4 =
      ({ store := { events := [], nextId := 6 }
         tracker := { lastConfirmedId := 5, updatedAt := 0 } },
       .error .belowLastConfirmed) := by
  constructor
  · decide
  · rfl

/-- C5 (amended): an ack above `store.maxId()` that is not also below the last
confirmed checkpoint fails with the "does not exist" reason and leaves the
state exactly as it was. -/
theorem ack_above_maxId_rejected (now : Nat) (st : SysState)
    (checkpointId : Nat) (h1 : st.store.maxId < checkpointId)
    (h2 : st.tracker.lastConfirmedId ≤ checkpointId) :
    ack now st checkpointId = (st, .error .doesNotExist) := by
  have hlt : ¬ checkpointId < st.tracker.lastConfirmedId := by omega
  simp only [ack, if_neg hlt, if_pos h1]

/-- Witness for C5 (amended): the spec scenario "`ack(5)` when `maxId()==3`". -/
theorem ack_above_maxId_rejected_witness :
    ack 7 { store :=
              { events :=
                  [ { id := 1, entity_id := 1, event_kind := .created
                      occurred_at := 1, payload := .createdP 1 "a" }
                  , { id := 2, entity_id := 2, event_kind := .created
                      occurred_at := 2, payload := .createdP 2 "b" }
                  , { id := 3, entity_id := 3, event_kind := .created
                      occurred_at := 3, payload := .createdP 3 "c" } ]
                nextId := 4 }
            tracker := { lastConfirmedId := 0, updatedAt := 0 } } 5 =
      ({ store :=
           { events :=
               [ { id := 1, entity_id := 1, event_kind := .created
                   occurred_at := 1, payload := .createdP 1 "a" }
               , { id := 2, entity_id := 2, event_kind := .created
                   occurred_at := 2, payload := .createdP 2 "b" }
               , { id := 3, entity_id := 3, event_kind := .created
                   occurred_at := 3, payload := .createdP 3 "c" } ]
             nextId := 4 }
         tracker := { lastConfirmedId := 0, updatedAt := 0 } },
       .error .doesNotExist) :=
  ack_above_maxId_rejected 7 _ 5 (by decide) (by decide)

/-- C6 counterexample: after a fully-purging ack the tracker sits above the
(now empty) store's `maxId`, and re-sending the same ack is not a successful
no-op: with the §4.4 checks applied in their stated order it fails with
"does not exist". -/
theorem reack_after_full_purge_counterexample :
    (({ store := { events := [], nextId := 6 }
        tracker := { lastConfirmedId := 5, updatedAt := 0 } } :
        SysState).tracker.lastConfirmedId = 5) ∧
    (ack 7 { store := { events := [], nextId := 6 }
             tracker := { lastConfirmedId := 5, updatedAt := 0 } } 5).2 =
      .error .doesNotExist := by
  constructor
  · rfl
  · rfl

lemma ack_store_nextId (now : Nat) (st : SysState) (cp : Nat) :
    (ack now st cp).1.store.nextId = st.store.nextId := by
  unfold ack
  split
  · rfl
  · split
    · rfl
    · split
      · rfl
      · rfl

lemma applyOp_store_nextId_le (st : SysState) (op : LogOp) :
    st.store.nextId ≤ (applyOp st op).store.nextId := by
  cases op with
  | appendOp now entityId kind payload => exact Nat.le_succ _
  | ackOp now cp => exact Nat.le_of_eq (ack_store_nextId now st cp).symm
  | purgeOp n => exact Nat.le_refl _

lemma assignedIds_lower (ops : List LogOp) :
    ∀ st : SysState, ∀ j ∈ assignedIds st ops, st.store.nextId ≤ j := by
  induction ops with
  | nil => intro st j hj; simp [assignedIds] at hj
  | cons op ops ih =>
    intro st j hj
    cases op with
    | appendOp now entityId kind payload =>
      rcases List.mem_cons.mp hj with h | h
      · omega
      · have := ih _ j h
        have hle := applyOp_store_nextId_le st (.appendOp now entityId kind payload)
        omega
    | ackOp now cp =>
      have := ih _ j hj
      have hle := applyOp_store_nextId_le st (.ackOp now cp)
      omega
    | purgeOp n =>
      have := ih _ j hj
      have hle := applyOp_store_nextId_le st (.purgeOp n)
      omega

lemma assignedIds_pairwise (ops : List LogOp) :
    ∀ st : SysState, (assignedIds st ops).Pairwise (· < ·) := by
  induction ops with
  | nil => intro st; simp [assignedIds]
  | cons op ops ih =>
    intro st
    cases op with
    | appendOp now entityId kind payload =>
      refine List.pairwise_cons.mpr ⟨?_, ih _⟩
      intro j hj
      have := assignedIds_lower ops _ j hj
      have : st.store.nextId + 1 ≤ j := by
        simpa [applyOp, ChangeLogStore.append] using this
      omega
    | ackOp now cp => exact ih _
    | purgeOp n => exact ih _

lemma wfStore_deleteUpTo (s : ChangeLogStore) (n : Nat) (h : WfStore s) :
    WfStore (s.deleteUpTo n) := by
  constructor
  · exact List.Pairwise.sublist (List.filter_sublist _) h.1
  · intro e he
    exact h.2 e (List.mem_of_mem_filter he)

lemma wfStore_append (s : ChangeLogStore) (now entityId : Nat)
    (kind : EventKind) (payload : Payload) (h : WfStore s) :
    WfStore (s.append now entityId kind payload).1 := by
  constructor
  · refine List.pairwise_append.mpr ⟨h.1, List.pairwise_singleton _ _, ?_⟩
    intro a ha b hb
    have hb' : b.id = s.nextId := by
      simp only [List.mem_singleton] at hb
      rw [hb]
    rw [hb']
    exact h.2 a ha
  · intro e he
    show e.id < s.nextId + 1
    rcases List.mem_append.mp he with h' | h'
    · have := h.2 e h'
      omega
    · simp only [List.mem_singleton] at h'
      rw [h']
      exact Nat.lt_succ_self _

lemma wfSys_applyOp (st : SysState) (op : LogOp) (h : WfSys st) :
    WfSys (applyOp st op) := by
  cases op with
  | appendOp now entityId kind payload =>
    show WfStore (st.store.append now entityId kind payload).1
    exact wfStore_append st.store now entityId kind payload h
  | ackOp now cp =>
    show WfStore (ack now st cp).1.store
    unfold ack
    split
    · exact h
    · split
      · exact h
      · split
        · exact h
        · exact wfStore_deleteUpTo st.store cp h
  | purgeOp n =>
    show WfStore (st.store.deleteUpTo n)
    exact wfStore_deleteUpTo st.store n h

lemma wfSys_runOps (ops : List LogOp) :
    ∀ st : SysState, WfSys st → WfSys (runOps st ops) := by
  induction ops with
  | nil => intro st h; exact h
  | cons op ops ih => intro st h; exact ih _ (wfSys_applyOp st op h)

lemma storedIds_lt_nextId (st : SysState) (h : WfSys st) :
    ∀ i ∈ storedIds st, i < st.store.nextId := by
  intro i hi
  rcases List.mem_map.mp hi with ⟨e, he, rfl⟩
  exact h.2 e he

/-- C3: over any operation sequence (appends interleaved with acks and direct
purges) from a well-formed state, the ids assigned to appended events are
strictly increasing — hence never reused — and every id present in the store
at any intermediate point (in particular every id purged by an ack) is
strictly below every id assigned afterwards. -/
theorem append_ids_strictly_increasing (st : SysState) (ops : List LogOp)
    (hwf : WfSys st) :
    (assignedIds st ops).Pairwise (· < ·) ∧
    ∀ pre suf, ops = pre ++ suf →
      ∀ i ∈ storedIds (runOps st pre),
        ∀ j ∈ assignedIds (runOps st pre) suf, i < j := by
  refine ⟨assignedIds_pairwise ops st, ?_⟩
  intro pre suf _ i hi j hj
  have hwf' := wfSys_runOps pre st hwf
  have h1 := storedIds_lt_nextId _ hwf' i hi
  have h2 := assignedIds_lower suf _ j hj
  omega

/-- Witness for C3: a run of the model from the initial state — two appends,
a full ack-purge at 2, then two more appends. -/
theorem append_ids_strictly_increasing_witness :
    (assignedIds initState
      [ .appendOp 1 7 .created (.createdP 7 "a")
      , .appendOp 2 8 .created (.createdP 8 "b")
      , .ackOp 3 2
      , .appendOp 4 7 .updated (.updatedP 7 "c" "a")
      , .appendOp 5 7 .deleted (.deletedP 7 "c") ]).Pairwise (· < ·) :=
  (append_ids_strictly_increasing initState
    [ .appendOp 1 7 .created (.createdP 7 "a")
    , .appendOp 2 8 .created (.createdP 8 "b")
    , .ackOp 3 2
    , .appendOp 4 7 .updated (.updatedP 7 "c" "a")
    , .appendOp 5 7 .deleted (.deletedP 7 "c") ] (by decide)).1

/-- C6 (amended): re-acking the tracker's current value is a successful no-op
— nothing is deleted or mutated and the current `last_confirmed_id` and
`updated_at` are returned — provided the acked id is still within the stored
log (`checkpointId ≤ store.maxId()`, which always holds for checkpoint 0). -/
theorem reack_idempotent_noop (now : Nat) (st : SysState) (checkpointId : Nat)
    (h1 : checkpointId = st.tracker.lastConfirmedId)
    (h2 : checkpointId ≤ st.store.maxId) :
    ack now st checkpointId =
      (st, .ok (st.tracker.lastConfirmedId, st.tracker.updatedAt)) := by
  have hlt : ¬ checkpointId < st.tracker.lastConfirmedId := by omega
  have hmax : ¬ st.store.maxId < checkpointId := by omega
  simp only [ack, if_neg hlt, if_neg hmax, if_pos h1]

/-- Witness for C6 (amended): re-acking 10 in the spec scenario. -/
theorem reack_idempotent_noop_witness :
    ack 7 scenarioState 10 =
      (scenarioState,
       .ok (scenarioState.tracker.lastConfirmedId,
            scenarioState.tracker.updatedAt)) :=
  reack_idempotent_noop 7 scenarioState 10 (by decide) (by decide)

/-- C7: a change-feed read leaves the state untouched, and repeating the same
read on the state it leaves behind returns an identical page — in this model
of the specification the read is pure by construction, so both facts hold
definitionally. -/
theorem listChanges_pure_read (st : SysState) (since : Option Nat)
    (limit : Nat) :
    (listChangesCall st since limit).2 = st ∧
    (listChangesCall (listChangesCall st since limit).2 since limit).1 =
      (listChangesCall st since limit).1 :=
  ⟨rfl, rfl⟩

end ChangeFeed

namespace BillingBatch

/-- C8: the two convenience views agree, both contain exactly the transaction
payloads of the batch's `created`/`updated` events (deletions never appear),
`transaction_events` is the full batch, and every deletion event in it carries
`transaction = null` with a set `transaction_id`; all three views come from the
one batch argument of the single `projectBatch` call. -/
theorem dual_view_projection_spec (muts : List TxMutation) :
    (projectBatch (muts.map txEventOfMutation)).transactions =
      (projectBatch (muts.map txEventOfMutation)).active_transactions_in_batch ∧
    (projectBatch (muts.map txEventOfMutation)).transaction_events =
      muts.map txEventOfMutation ∧
    (projectBatch (muts.map txEventOfMutation)).transactions =
      muts.filterMap (fun m => match m with
        | .created t => some t
        | .updated t => some t
        | .deleted _ => none) ∧
    ∀ e ∈ (projectBatch (muts.map txEventOfMutation)).transaction_events,
      e.event = .deleted →
        e.transaction = none ∧ e.transaction_id.isSome = true := by
  refine ⟨rfl, rfl, ?_, ?_⟩
  · induction muts with
    | nil => rfl
    | cons m t ih =>
      cases m with
      | created a => simpa [projectBatch, txEventOfMutation] using ih
      | updated a => simpa [projectBatch, txEventOfMutation] using ih
      | deleted i => simpa [projectBatch, txEventOfMutation] using ih
  · intro e he hdel
    rcases List.mem_map.mp he with ⟨m, _, rfl⟩
    cases m with
    | created a => simp [txEventOfMutation] at hdel
    | updated a => simp [txEventOfMutation] at hdel
    | deleted i => exact ⟨rfl, rfl⟩

/-- Witness for C8: a concrete batch with one creation, one update and one
deletion. -/
theorem dual_view_projection_spec_witness :
    (projectBatch ([.created ⟨1, "a"⟩, .updated ⟨1, "b"⟩,
        .deleted 1].map txEventOfMutation)).transactions =
      (projectBatch ([.created ⟨1, "a"⟩, .updated ⟨1, "b"⟩,
        .deleted 1].map txEventOfMutation)).active_transactions_in_batch ∧
    (projectBatch ([.created ⟨1, "a"⟩, .updated ⟨1, "b"⟩,
        .deleted 1].map txEventOfMutation)).transaction_events =
      [.created ⟨1, "a"⟩, .updated ⟨1, "b"⟩, .deleted 1].map txEventOfMutation ∧
    (projectBatch ([.created ⟨1, "a"⟩, .updated ⟨1, "b"⟩,
        .deleted 1].map txEventOfMutation)).transactions =
      [TxMutation.created ⟨1, "a"⟩, .updated ⟨1, "b"⟩,
        .deleted 1].filterMap (fun m => match m with
          | .created t => some t
          | .updated t => some t
          | .deleted _ => none) := by
  have h :=
    dual_view_projection_spec [.created ⟨1, "a"⟩, .updated ⟨1, "b"⟩, .deleted 1]
  exact ⟨h.1, h.2.1, h.2.2.1⟩

end BillingBatch

namespace Inkwell

lemma classifyRetention_eq (c : RetCert) :
    classifyRetention c =
      (if ivaNamed c then RetCategory.iva
       else if jsIncludes (effName c) "iibb" ||
              jsIncludes (effName c) "ingresos brutos" then RetCategory.iibb
       else RetCategory.other) := by
  simp only [classifyRetention, ivaNamed, effName]
  by_cases h : jsToLower (c.taxTypeName.getD "") = ""
  · simp only [h]
    decide
  · rw [if_neg h]

lemma classify_iva_iff (c : RetCert) :
    classifyRetention c = RetCategory.iva ↔ ivaNamed c = true := by
  by_cases h : ivaNamed c = true
  · simp [classifyRetention_eq, h]
  · by_cases h2 : (jsIncludes (effName c) "iibb" ||
        jsIncludes (effName c) "ingresos brutos") = true
    · simp [classifyRetention_eq, h, h2]
    · simp [classifyRetention_eq, h, h2]

lemma classify_iibb_iff (c : RetCert) :
    classifyRetention c = RetCategory.iibb ↔ iibbNamed c = true := by
  by_cases h : ivaNamed c = true
  · simp [classifyRetention_eq, iibbNamed, h]
  · by_cases h2 : (jsIncludes (effName c) "iibb" ||
        jsIncludes (effName c) "ingresos brutos") = true
    · simp [classifyRetention_eq, iibbNamed, h, h2]
    · simp [classifyRetention_eq, iibbNamed, h, h2]

lemma classify_other_iff (c : RetCert) :
    classifyRetention c = RetCategory.other ↔ otherNamed c = true := by
  by_cases h : ivaNamed c = true
  · simp [classifyRetention_eq, otherNamed, h]
  · by_cases h2 : (jsIncludes (effName c) "iibb" ||
        jsIncludes (effName c) "ingresos brutos") = true
    · simp [classifyRetention_eq, otherNamed, h, h2]
    · simp [classifyRetention_eq, otherNamed, h, h2]

lemma sumBy_cons {α : Type} (a : α) (l : List α) (f : α → ℚ) :
    sumBy (a :: l) f = f a + sumBy l f := by
  simp [sumBy]

lemma sumBy_congr {α : Type} (l : List α) (f g : α → ℚ)
    (h : ∀ a ∈ l, f a = g a) : sumBy l f = sumBy l g := by
  unfold sumBy
  rw [List.map_congr_left h]

lemma sumBy_filter {α : Type} (l : List α) (p : α → Bool) (f : α → ℚ) :
    sumBy (l.filter p) f = sumBy l (fun a => if p a then f a else 0) := by
  induction l with
  | nil => rfl
  | cons a t ih =>
    rw [List.filter_cons]
    by_cases h : p a = true
    · rw [if_pos h, sumBy_cons, sumBy_cons, ih, if_pos h]
    · rw [if_neg h, sumBy_cons, ih]
      rw [if_neg h, zero_add]

lemma foldl_stepInvoice (l : List Invoice) :
    ∀ acc : InvAcc,
    (l.foldl stepInvoice acc).purchaseIva = acc.purchaseIva +
      sumBy l (fun i => if i.type = some "purchase"
        then toNumber i.iva_amount else 0) ∧
    (l.foldl stepInvoice acc).salesIva = acc.salesIva +
      sumBy l (fun i => if i.type = some "sale"
        then toNumber i.iva_amount else 0) ∧
    (l.foldl stepInvoice acc).sircreb = acc.sircreb +
      sumBy l (fun i => if i.type = some "sale"
        then toNumber i.iibb_amount else 0) ∧
    (l.foldl stepInvoice acc).perceptions = acc.perceptions +
      sumBy l (fun i => toNumber i.percepciones) := by
  induction l with
  | nil => intro acc; simp [sumBy]
  | cons i t ih =>
    intro acc
    obtain ⟨h1, h2, h3, h4⟩ := ih (stepInvoice acc i)
    have hstep :
        (stepInvoice acc i).purchaseIva = acc.purchaseIva +
          (if i.type = some "purchase" then toNumber i.iva_amount else 0) ∧
        (stepInvoice acc i).salesIva = acc.salesIva +
          (if i.type = some "sale" then toNumber i.iva_amount else 0) ∧
        (stepInvoice acc i).sircreb = acc.sircreb +
          (if i.type = some "sale" then toNumber i.iibb_amount else 0) ∧
        (stepInvoice acc i).perceptions = acc.perceptions +
          toNumber i.percepciones := by
      unfold stepInvoice
      by_cases hp : i.type = some "purchase"
      · have hs : ¬ i.type = some "sale" := by rw [hp]; simp
        simp [hp, hs]
      · by_cases hs : i.type = some "sale"
        · simp [hp, hs]
        · simp [hp, hs]
    refine ⟨?_, ?_, ?_, ?_⟩
    · rw [List.foldl_cons, h1, hstep.1, sumBy_cons]; ring
    · rw [List.foldl_cons, h2, hstep.2.1, sumBy_cons]; ring
    · rw [List.foldl_cons, h3, hstep.2.2.1, sumBy_cons]; ring
    · rw [List.foldl_cons, h4, hstep.2.2.2, sumBy_cons]; ring

lemma foldl_stepRetention (l : List RetCert) :
    ∀ acc : RetAcc,
    (l.foldl stepRetention acc).ivaRetentions = acc.ivaRetentions +
      sumBy l (fun c => if classifyRetention c = RetCategory.iva
        then toNumber c.amount else 0) ∧
    (l.foldl stepRetention acc).iibbRetentions = acc.iibbRetentions +
      sumBy l (fun c => if classifyRetention c = RetCategory.iibb
        then toNumber c.amount else 0) ∧
    (l.foldl stepRetention acc).otherAdditions = acc.otherAdditions +
      sumBy l (fun c => if classifyRetention c = RetCategory.other
        then toNumber c.amount else 0) := by
  induction l with
  | nil => intro acc; simp [sumBy]
  | cons c t ih =>
    intro acc
    obtain ⟨h1, h2, h3⟩ := ih (stepRetention acc c)
    have hstep :
        (stepRetention acc c).ivaRetentions = acc.ivaRetentions +
          (if classifyRetention c = RetCategory.iva
            then toNumber c.amount else 0) ∧
        (stepRetention acc c).iibbRetentions = acc.iibbRetentions +
          (if classifyRetention c = RetCategory.iibb
            then toNumber c.amount else 0) ∧
        (stepRetention acc c).otherAdditions = acc.otherAdditions +
          (if classifyRetention c = RetCategory.other
            then toNumber c.amount else 0) := by
      rcases hc : classifyRetention c with _ | _ | _ <;>
        simp [stepRetention, hc]
    refine ⟨?_, ?_, ?_⟩
    · rw [List.foldl_cons, h1, hstep.1, sumBy_cons]; ring
    · rw [List.foldl_cons, h2, hstep.2.1, sumBy_cons]; ring
    · rw [List.foldl_cons, h3, hstep.2.2, sumBy_cons]; ring

/-- C9: `calculateInkwellTotals` coerces its inputs through `toNumber`; its
`purchaseIva` sums `iva_amount` over invoices of type `purchase`; `salesIva`
and `sircreb` sum `iva_amount` and `iibb_amount` over invoices of type `sale`;
`ivaRetentions` sums the certificates whose (lower-cased) tax-type name
contains `"iva"` — even when it also contains `"iibb"`, since the `"iva"` test
is applied first; `iibbRetentions` sums the rest that contain `"iibb"` or
`"ingresos brutos"`; the returned `perceptions` is the invoice perceptions
total plus the other-category retention amounts; `available` is
`(income - expense) + purchaseIva + ivaRetentions + iibbRetentions +
 perceptions - salesIva - sircreb`; an empty or missing name classifies as
`other`. -/
theorem calculateInkwellTotals_spec (billingData : BillingData)
    (summary : InkwellSummary) :
    (calculateInkwellTotals billingData summary).income =
      toNumber summary.inkwell_income ∧
    (calculateInkwellTotals billingData summary).expense =
      toNumber summary.inkwell_expense ∧
    (calculateInkwellTotals billingData summary).purchaseIva =
      sumBy ((billingData.invoices.getD []).filter
        (fun i => i.type = some "purchase")) (fun i => toNumber i.iva_amount) ∧
    (calculateInkwellTotals billingData summary).salesIva =
      sumBy ((billingData.invoices.getD []).filter
        (fun i => i.type = some "sale")) (fun i => toNumber i.iva_amount) ∧
    (calculateInkwellTotals billingData summary).sircreb =
      sumBy ((billingData.invoices.getD []).filter
        (fun i => i.type = some "sale")) (fun i => toNumber i.iibb_amount) ∧
    (calculateInkwellTotals billingData summary).ivaRetentions =
      sumBy ((billingData.retention_certificates.getD []).filter ivaNamed)
        (fun c => toNumber c.amount) ∧
    (calculateInkwellTotals billingData summary).iibbRetentions =
      sumBy ((billingData.retention_certificates.getD []).filter iibbNamed)
        (fun c => toNumber c.amount) ∧
    (calculateInkwellTotals billingData summary).perceptions =
      sumBy (billingData.invoices.getD []) (fun i => toNumber i.percepciones) +
        sumBy ((billingData.retention_certificates.getD []).filter otherNamed)
          (fun c => toNumber c.amount) ∧
    (calculateInkwellTotals billingData summary).baseAvailable =
      (calculateInkwellTotals billingData summary).income -
        (calculateInkwellTotals billingData summary).expense ∧
    (calculateInkwellTotals billingData summary).available =
      (calculateInkwellTotals billingData summary).income -
        (calculateInkwellTotals billingData summary).expense +
        (calculateInkwellTotals billingData summary).purchaseIva +
        (calculateInkwellTotals billingData summary).ivaRetentions +
        (calculateInkwellTotals billingData summary).iibbRetentions +
        (calculateInkwellTotals billingData summary).perceptions -
        (calculateInkwellTotals billingData summary).salesIva -
        (calculateInkwellTotals billingData summary).sircreb ∧
    ∀ c : RetCert,
      (jsIncludes (effName c) "iva" = true →
        classifyRetention c = RetCategory.iva) ∧
      (c.taxTypeName.getD "" = "" →
        classifyRetention c = RetCategory.other) := by
  obtain ⟨hi1, hi2, hi3, hi4⟩ :=
    foldl_stepInvoice (billingData.invoices.getD []) ⟨0, 0, 0, 0⟩
  obtain ⟨hr1, hr2, hr3⟩ :=
    foldl_stepRetention (billingData.retention_certificates.getD []) ⟨0, 0, 0⟩
  have eiva :
      sumBy (billingData.retention_certificates.getD [])
        (fun c => if classifyRetention c = RetCategory.iva
          then toNumber c.amount else 0) =
      sumBy ((billingData.retention_certificates.getD []).filter ivaNamed)
        (fun c => toNumber c.amount) := by
    rw [sumBy_filter]
    exact sumBy_congr _ _ _ (fun c _ => by simp only [classify_iva_iff])
  have eiibb :
      sumBy (billingData.retention_certificates.getD [])
        (fun c => if classifyRetention c = RetCategory.iibb
          then toNumber c.amount else 0) =
      sumBy ((billingData.retention_certificates.getD []).filter iibbNamed)
        (fun c => toNumber c.amount) := by
    rw [sumBy_filter]
    exact sumBy_congr _ _ _ (fun c _ => by simp only [classify_iibb_iff])
  have eother :
      sumBy (billingData.retention_certificates.getD [])
        (fun c => if classifyRetention c = RetCategory.other
          then toNumber c.amount else 0) =
      sumBy ((billingData.retention_certificates.getD []).filter otherNamed)
        (fun c => toNumber c.amount) := by
    rw [sumBy_filter]
    exact sumBy_congr _ _ _ (fun c _ => by simp only [classify_other_iff])
  refine ⟨rfl, rfl, ?_, ?_, ?_, ?_, ?_, ?_, rfl, ?_, ?_⟩
  · show ((billingData.invoices.getD []).foldl stepInvoice
      ⟨0, 0, 0, 0⟩).purchaseIva = _
    rw [hi1, sumBy_filter, zero_add]
    exact sumBy_congr _ _ _ (fun a _ => by simp only [decide_eq_true_eq])
  · show ((billingData.invoices.getD []).foldl stepInvoice
      ⟨0, 0, 0, 0⟩).salesIva = _
    rw [hi2, sumBy_filter, zero_add]
    exact sumBy_congr _ _ _ (fun a _ => by simp only [decide_eq_true_eq])
  · show ((billingData.invoices.getD []).foldl stepInvoice
      ⟨0, 0, 0, 0⟩).sircreb = _
    rw [hi3, sumBy_filter, zero_add]
    exact sumBy_congr _ _ _ (fun a _ => by simp only [decide_eq_true_eq])
  · show ((billingData.retention_certificates.getD []).foldl stepRetention
      ⟨0, 0, 0⟩).ivaRetentions = _
    rw [hr1, zero_add, eiva]
  · show ((billingData.retention_certificates.getD []).foldl stepRetention
      ⟨0, 0, 0⟩).iibbRetentions = _
    rw [hr2, zero_add, eiibb]
  · show ((billingData.invoices.getD []).foldl stepInvoice
        ⟨0, 0, 0, 0⟩).perceptions +
      ((billingData.retention_certificates.getD []).foldl stepRetention
        ⟨0, 0, 0⟩).otherAdditions = _
    rw [hi4, hr3, zero_add, zero_add, eother]
  · have hgen : ∀ inc exp p ir br perc oth sv sc : ℚ,
        (inc - exp) + (p + ir + br + perc + oth) - (sv + sc) =
          inc - exp + p + ir + br + (perc + oth) - sv - sc := by
      intro inc exp p ir br perc oth sv sc
      ring
    exact hgen (toNumber summary.inkwell_income)
      (toNumber summary.inkwell_expense)
      ((billingData.invoices.getD []).foldl stepInvoice
        ⟨0, 0, 0, 0⟩).purchaseIva
      ((billingData.retention_certificates.getD []).foldl stepRetention
        ⟨0, 0, 0⟩).ivaRetentions
      ((billingData.retention_certificates.getD []).foldl stepRetention
        ⟨0, 0, 0⟩).iibbRetentions
      ((billingData.invoices.getD []).foldl stepInvoice
        ⟨0, 0, 0, 0⟩).perceptions
      ((billingData.retention_certificates.getD []).foldl stepRetention
        ⟨0, 0, 0⟩).otherAdditions
      ((billingData.invoices.getD []).foldl stepInvoice
        ⟨0, 0, 0, 0⟩).salesIva
      ((billingData.invoices.getD []).foldl stepInvoice
        ⟨0, 0, 0, 0⟩).sircreb
  · intro c
    constructor
    · intro h
      exact (classify_iva_iff c).mpr h
    · intro h
      have hname : jsToLower (c.taxTypeName.getD "") = "" := by
        rw [h]
        decide
      simp only [classifyRetention, hname]
      decide

/-- Witness for C9: a tax-type name containing both `"iva"` and `"iibb"` is
classified as `iva` by the theorem's last conjunct. -/
theorem calculateInkwellTotals_spec_witness :
    jsIncludes
      (effName { taxTypeName := some "Ret IVA e IIBB", amount := JsNum.val 5 })
      "iva" = true ∧
    classifyRetention
      { taxTypeName := some "Ret IVA e IIBB", amount := JsNum.val 5 } =
      RetCategory.iva :=
  ⟨by decide,
   ((calculateInkwellTotals_spec
      { invoices := none, retention_certificates := none }
      { inkwell_income := .missing,
        inkwell_expense := .missing }).2.2.2.2.2.2.2.2.2.2
      { taxTypeName := some "Ret IVA e IIBB", amount := JsNum.val 5 }).1
    (by decide)⟩

end Inkwell

namespace TxList

lemma runTx_offset_tally {α : Type} (ops : List (TxOp α)) :
    ∀ (st : TxListState α) (tally : Nat), st.offset = tally →
      (runTx st tally ops).1.offset = (runTx st tally ops).2 := by
  induction ops with
  | nil =>
    intro st tally h
    exact h
  | cons op t ih =>
    intro st tally h
    cases op with
    | more data =>
      by_cases hg : (st.loading || !st.hasMore) = true
      · have hlm : loadMore st data = (st, false) := by
          rw [loadMore, if_pos hg]
        simp only [runTx, hlm]
        exact ih st (tally + 0) (by omega)
      · have hlm : loadMore st data =
            ({ transactions := st.transactions ++ data
               offset := st.offset + data.length
               hasMore := if data.length < txLimit then false else st.hasMore
               loading := false }, true) := by
          rw [loadMore, if_neg hg]
        simp only [runTx, hlm]
        exact ih _ _ (by simp [h])
    | reload data =>
      by_cases hg : st.loading = true
      · have hlm : loadMore
            { st with transactions := [], offset := 0, hasMore := true } data =
            ({ st with transactions := [], offset := 0, hasMore := true },
             false) := by
          rw [loadMore, if_pos (by simp [hg])]
        simp only [runTx, hlm]
        exact ih _ _ rfl
      · have hg' : ¬ (st.loading || !(true : Bool)) = true := by
          simp [hg]
        have hlm : loadMore
            { st with transactions := [], offset := 0, hasMore := true } data =
            ({ transactions := ([] : List α) ++ data
               offset := 0 + data.length
               hasMore := if data.length < txLimit then false else true
               loading := false }, true) := by
          rw [loadMore, if_neg hg']
        simp only [runTx, hlm]
        exact ih _ _ (by simp)

/-- C10: a `loadMore` whose fetch returns fewer than 50 rows clears `hasMore`;
once `hasMore` is false a `loadMore` call returns immediately without fetching
or changing anything; `reloadTransactions` restarts from an empty list and
offset 0 before its own fetch; and along any call sequence, whenever no load
is in flight, `offset` equals the number of rows fetched since the last
reset. -/
theorem loadMore_pagination_spec (α : Type) (st : TxListState α)
    (data : List α) (ops : List (TxOp α)) (tally : Nat) :
    (st.loading = false → st.hasMore = true → data.length < txLimit →
      loadMore st data =
        ({ transactions := st.transactions ++ data
           offset := st.offset + data.length
           hasMore := false
           loading := false }, true)) ∧
    (st.hasMore = false → loadMore st data = (st, false)) ∧
    (st.loading = false →
      (reloadTransactions st data).1.transactions = data ∧
      (reloadTransactions st data).1.offset = data.length ∧
      (reloadTransactions st data).2 = true) ∧
    (st.offset = tally →
      (runTx st tally ops).1.offset = (runTx st tally ops).2) := by
  refine ⟨?_, ?_, ?_, fun h => runTx_offset_tally ops st tally h⟩
  · intro hl hm hlen
    rw [loadMore, if_neg (by simp [hl, hm]), if_pos hlen]
  · intro hm
    rw [loadMore, if_pos (by simp [hm])]
  · intro hl
    have hlm : loadMore
        { st with transactions := [], offset := 0, hasMore := true } data =
        ({ transactions := ([] : List α) ++ data
           offset := 0 + data.length
           hasMore := if data.length < txLimit then false else true
           loading := false }, true) := by
      rw [loadMore, if_neg (by simp [hl])]
    unfold reloadTransactions
    rw [hlm]
    exact ⟨rfl, by simp, rfl⟩

/-- Witness for C10: a short first page on a fresh controller, and the offset
tally along a concrete call sequence. -/
theorem loadMore_pagination_spec_witness :
    loadMore (initTxList : TxListState Nat) [1, 2, 3] =
      ({ transactions := (initTxList : TxListState Nat).transactions ++ [1, 2, 3]
         offset := (initTxList : TxListState Nat).offset + [1, 2, 3].length
         hasMore := false
         loading := false }, true) ∧
    (runTx (initTxList : TxListState Nat) 0
        [.more [1, 2, 3], .more [4], .reload [5, 6]]).1.offset =
      (runTx (initTxList : TxListState Nat) 0
        [.more [1, 2, 3], .more [4], .reload [5, 6]]).2 := by
  have h := loadMore_pagination_spec Nat initTxList [1, 2, 3]
    [.more [1, 2, 3], .more [4], .reload [5, 6]] 0
  exact ⟨h.1 rfl rfl (by decide), h.2.2.2 rfl⟩

end TxList
